import Mathlib

/-!
Formal model of `spotwx.py` (class `SpotWx`): input validation, URL
construction, and the scrape-and-save pipeline, as a shallow embedding.

Modelling conventions, stated once here:

* A Python `float` is abstracted to the two observations the program makes
  of it: its `str()` rendering (`repr`) and its truth value (`truthy`,
  which for a real float is `x != 0.0`).  The code never does arithmetic
  on `lat`/`lon`; it only formats them into the URL and tests them for
  truthiness in `_create_url`.
* The six constructor parameters are dynamically typed in Python (the CLI
  passes strings for all six), so they are modelled by `PyVal`, a sum of
  the two value kinds that actually reach the constructor: `str` and
  `float`.  `isinstance` checks in `_verify_inputs` become constructor
  matches.
* Exceptions raised by `_verify_inputs` are modelled by `PyExc`; a raised
  message is abstracted to the parameter name it identifies plus the list
  of accepted values the message reports (`[]` when the message reports a
  format rather than a value list).
* The HTTP response body is modelled by its status code together with the
  list of `<script>` tag texts that BeautifulSoup would extract from the
  HTML, since the code reads nothing else from the body
  (`soup.find('script', text=re.compile(r'var aDataSet ='))` selects the
  first script whose text contains that pattern).
* `json.loads` is modelled (in `jsonParse`) on the grammar the scraped
  literal actually uses: an array of arrays of strings, without
  whitespace between tokens.  Strings with backslash escapes or with raw
  control characters are rejected, mirroring strict-mode `json.loads`
  failing on raw control characters and never being fed escape sequences
  by the theorems below.
* `pandas.DataFrame(data, columns=7 headers)` followed by
  `to_csv(path, index=False)` is modelled by a width check (uniform
  7-element rows) and `csvContent`, which mirrors csv QUOTE_MINIMAL
  quoting: a field is quoted iff it contains the delimiter, the quote
  char, or a line terminator, with inner quotes doubled.
* Side effects (the GET request, writing the csv, `print`) are modelled
  as an explicit event trace; an uncaught exception aborts the trace.
-/

set_option maxRecDepth 8000

namespace Spotwx

/-- The single-quote character (codepoint 39), kept out of literals. -/
def sq : Char := Char.ofNat 39

/-- A Python float as observed by `spotwx.py`: its `str()` rendering and
its truth value (`truthy = (x != 0.0)` for an actual float `x`). -/
structure PyFloat where
  repr : String
  truthy : Bool
deriving DecidableEq

/-- A dynamically typed parameter value as it can reach `SpotWx.__init__`:
either a `str` (e.g. from `sys.argv`) or a `float`. -/
inductive PyVal where
  | str (s : String)
  | float (f : PyFloat)
deriving DecidableEq

/-- Python truthiness of a `PyVal`: a `str` is truthy iff nonempty, a
float is truthy iff nonzero. -/
def pyTruthy : PyVal → Bool
  | .str s => !(s == "")
  | .float f => f.truthy

/-- Python `str()` / f-string rendering of a `PyVal`. -/
def pyStr : PyVal → String
  | .str s => s
  | .float f => f.repr

/-- The `SpotWx` instance state set up by `__init__`: the six parameters
plus the `zone` attribute, which `__init__` sets to `None`. -/
structure SpotWxState where
  csv_path : PyVal
  model_request : PyVal
  lat : PyVal
  lon : PyVal
  timezone : PyVal
  display : PyVal
  zone : Option String
deriving DecidableEq

/-- Model of `SpotWx.__init__`: stores the six parameters and initializes
`self.zone = None`; no other assignment to `zone` exists in the code. -/
def mkSpotWx (csv_path model_request lat lon timezone display : PyVal) :
    SpotWxState :=
  ⟨csv_path, model_request, lat, lon, timezone, display, none⟩

/-- The registry `self.model_dict`, in insertion order. -/
def model_dict : List (String × String) :=
  [("hrdps", "hrdps_1km_west"),
   ("hrdps_continental", "hrdps_continental"),
   ("rdps", "rdps_10km"),
   ("gdps", "gem_glb_15km"),
   ("geps", "geps_0p5_raw"),
   ("rap", "rap_awp"),
   ("nam", "nam_awphys"),
   ("sref", "sref_pgrb"),
   ("gfs", "gfs_pgrb2"),
   ("gfs_uv_index", "gfs_uv"),
   ("short_meteocode", "meteocode"),
   ("ext_meteocode", "meteocode")]

/-- The registry `self.title_dict`. -/
def title_dict : List (String × String) :=
  [("short_meteocode", "FPVR14"),
   ("ext_meteocode", "FPVR54")]

/-- The key list `list(self.model_dict.keys())`. -/
def model_keys : List String := model_dict.map Prod.fst

/-- The allow-list `self.timezone_list`. -/
def timezone_list : List String :=
  ["America/Vancouver", "America/Edmonton", "America/Regina",
   "America/Winnipeg", "America/Toronto", "America/Montreal",
   "America/St_Johns", "America/Halifax", "America/Goose_Bay",
   "America/Whitehorse", "America/Yellowknife", "America/Rankin_Inlet",
   "America/Iqaluit", "America/Cambridge_Bay", "America/Coral_Harbour"]

/-- The allow-list `self.display_list`. -/
def display_list : List String :=
  ["table", "table_prometheus"]

/-- Python `str.endswith(suffix)`. -/
def strEndsWith (s suffix : String) : Bool := decide (suffix.data <:+ s.data)

/-- Python `dict.get(k, None)` over an association list. -/
def dictGet (d : List (String × String)) (k : String) : Option String :=
  match d.find? (fun p => p.1 == k) with
  | some p => some p.2
  | none => none

/-- An exception raised by the program, abstracted to its kind, the
parameter it identifies, and the accepted-value list its message reports. -/
inductive PyExc where
  | typeError (param : String)
  | valueError (param : String) (accepted : List String)
  | attributeError
  | jsonDecodeError
  | pandasError
deriving DecidableEq

/-- Model of `SpotWx._verify_inputs`, with the checks in source order:
csv_path (str, then `.csv` suffix), model_request (str, then registry
membership), lat (float), lon (float), timezone (str, then allow-list),
display (str, then allow-list).  Pure: it only inspects the state. -/
def verify_inputs (st : SpotWxState) : Except PyExc Unit :=
  match st.csv_path with
  | .float _ => .error (.typeError "csv_path")
  | .str p =>
    if !(strEndsWith p ".csv") then .error (.valueError "csv_path" []) else
    match st.model_request with
    | .float _ => .error (.typeError "model_request")
    | .str m =>
      if !(model_keys.contains m) then
        .error (.valueError "model_request" model_keys) else
      match st.lat with
      | .str _ => .error (.valueError "lat" [])
      | .float _ =>
        match st.lon with
        | .str _ => .error (.valueError "lon" [])
        | .float _ =>
          match st.timezone with
          | .float _ => .error (.typeError "timezone")
          | .str tz =>
            if !(timezone_list.contains tz) then
              .error (.valueError "timezone" timezone_list) else
            match st.display with
            | .float _ => .error (.typeError "display")
            | .str d =>
              if !(display_list.contains d) then
                .error (.valueError "display" display_list)
              else .ok ()

/-- Model of `self.model = self.model_dict.get(self.model_request, None)`; a
non-`str` key is in no dict, so `get` yields `None`. -/
def modelOf (st : SpotWxState) : Option String :=
  match st.model_request with
  | .str m => dictGet model_dict m
  | .float _ => none

/-- Model of `self.title = self.title_dict.get(self.model_request, None)`. -/
def titleOf (st : SpotWxState) : Option String :=
  match st.model_request with
  | .str m => dictGet title_dict m
  | .float _ => none

/-- Python truthiness of an `Optional[str]`. -/
def optTruthy : Option String → Bool
  | none => false
  | some s => !(s == "")

/-- The query-string pieces appended by `SpotWx._create_url`, in source
order, each guarded by the code's truthiness test (`if self.model:`,
`if self.title:`, `if self.lat:`, `if self.lon:`, `if self.zone:`,
`if self.timezone:`, `if self.display:`). -/
def urlSegments (st : SpotWxState) : List String :=
  (if optTruthy (modelOf st) then ["model=" ++ (modelOf st).getD ""] else [])
  ++ (if optTruthy (titleOf st) then ["&title=" ++ (titleOf st).getD ""] else [])
  ++ (if pyTruthy st.lat then ["&lat=" ++ pyStr st.lat] else [])
  ++ (if pyTruthy st.lon then ["&lon=" ++ pyStr st.lon] else [])
  ++ (if optTruthy st.zone then ["&zone=" ++ st.zone.getD ""] else [])
  ++ (if pyTruthy st.timezone then ["&tz=" ++ pyStr st.timezone] else [])
  ++ (if pyTruthy st.display then ["&display=" ++ pyStr st.display] else [])

/-- Model of `SpotWx._create_url`: the base endpoint followed by the appended
pieces, concatenated in order (`self.url += ...`). -/
def createUrl (st : SpotWxState) : String :=
  "https://spotwx.com/products/grib_index.php?" ++ String.join (urlSegments st)

/-- The key of a query segment: strip the leading `&` (if any) and take
the characters before the first `=`. -/
def segKeyOf (seg : String) : String :=
  String.mk ((seg.data.dropWhile (fun c => c == '&')).takeWhile
    (fun c => !(c == '=')))

/-- The keys of the query segments of the constructed URL, in order. -/
def segmentKeys (st : SpotWxState) : List String :=
  (urlSegments st).map segKeyOf

/-- An HTTP response as observed by `_get_csv`: the status code, and the
response body abstracted to the list of `<script>` tag texts BeautifulSoup
extracts from it. -/
structure HttpResponse where
  status_code : Nat
  scripts : List String
deriving DecidableEq

/-- An observable side effect of one invocation. -/
inductive Event where
  | httpGet (url : String)
  | writeFile (path : String) (content : String)
  | print (msg : String)
deriving DecidableEq

/-- Is the event an HTTP GET? -/
def isGetEvent : Event → Bool
  | .httpGet _ => true
  | _ => false

/-- Is the event a file write? -/
def isWriteEvent : Event → Bool
  | .writeFile _ _ => true
  | _ => false

/-- The literal pattern of `re.compile(r'var aDataSet =')`, used to select
the script tag. -/
def aDataPat : List Char := ("var aDataSet =").data

/-- The fixed head of the extraction regex `var aDataSet = (\[.*?\]);`,
up to and including the opening bracket of the captured group. -/
def aPatL : List Char := ("var aDataSet = [").data

/-- Does the script text contain the `var aDataSet =` pattern
(`re.search` of a literal pattern is substring containment)? -/
def hasADataSet (s : String) : Bool := decide (aDataPat <:+: s.data)

/-- The non-greedy tail of the regex: consume characters until the first
`];`, returning everything up to and including that `]`; `none` when no
`];` follows (the regex then fails at this start position). -/
def scanToTerm : List Char → Option (List Char)
  | [] => none
  | c :: rest =>
    if c = ']' ∧ rest.head? = some ';' then some [']']
    else
      match scanToTerm rest with
      | some t => some (c :: t)
      | none => none

/-- Model of `re.search(r'var aDataSet = (\[.*?\]);', s, re.DOTALL).group(1)`:
the leftmost position where `var aDataSet = [` occurs and a `];`
terminator follows yields the capture from the `[` up to the first
subsequent `];` (bracket included, semicolon excluded). -/
def extractAData : List Char → Option (List Char)
  | [] => none
  | c :: rest =>
    if aPatL.isPrefixOf (c :: rest) then
      match scanToTerm ((c :: rest).drop aPatL.length) with
      | some t => some ('[' :: t)
      | none => extractAData rest
    else extractAData rest

/-- Model of `json_text.replace("'", '"')`: swap every single quote for a double
quote. -/
def swapQuotes (l : List Char) : List Char :=
  l.map (fun c => if c == sq then '"' else c)

/-- Parser state for `jsonParse` (see below): position in the
array-of-arrays-of-strings grammar plus accumulators (rows and the
current row are accumulated in reverse). -/
inductive PSt where
  | rowOrEnd (rows : List (List String))
  | rowRequired (rows : List (List String))
  | fieldOrEnd (rows : List (List String)) (row : List String)
  | fieldRequired (rows : List (List String)) (row : List String)
  | inStr (rows : List (List String)) (row : List String) (acc : List Char)
  | afterField (rows : List (List String)) (row : List String)
  | afterRow (rows : List (List String))
  | done (rows : List (List String))

/-- One character step of the `jsonParse` machine. -/
def stepP : PSt → Char → Option PSt
  | .rowOrEnd rows, c =>
    if c = '[' then some (.fieldOrEnd rows [])
    else if c = ']' then some (.done rows.reverse) else none
  | .rowRequired rows, c =>
    if c = '[' then some (.fieldOrEnd rows []) else none
  | .fieldOrEnd rows row, c =>
    if c = '"' then some (.inStr rows row [])
    else if c = ']' then some (.afterRow (row.reverse :: rows)) else none
  | .fieldRequired rows row, c =>
    if c = '"' then some (.inStr rows row []) else none
  | .inStr rows row acc, c =>
    if c = '"' then some (.afterField rows (String.mk acc.reverse :: row))
    else if c = '\\' then none
    else if c.toNat < 32 then none
    else some (.inStr rows row (c :: acc))
  | .afterField rows row, c =>
    if c = ',' then some (.fieldRequired rows row)
    else if c = ']' then some (.afterRow (row.reverse :: rows)) else none
  | .afterRow rows, c =>
    if c = ',' then some (.rowRequired rows)
    else if c = ']' then some (.done rows.reverse) else none
  | .done _, _ => none

/-- Run the machine to the end of input; only the `done` state accepts. -/
def runP : List Char → PSt → Option (List (List String))
  | [], st =>
    match st with
    | .done rows => some rows
    | _ => none
  | c :: rest, st =>
    match stepP st c with
    | some st2 => runP rest st2
    | none => none

/-- Model of `json.loads` on the scraped literal's grammar: an array of
arrays of strings, no inter-token whitespace, strings without escapes and
without raw control characters (strict mode rejects the latter). -/
def jsonParse (l : List Char) : Option (List (List String)) :=
  match l with
  | '[' :: rest => runP rest (.rowOrEnd [])
  | _ => none

/-- Does a csv field need quoting (QUOTE_MINIMAL): does it contain the
delimiter, the quote char, or a line terminator? -/
def csvNeedsQuote (f : String) : Bool :=
  f.data.any (fun c => c == ',' || c == '"' || c == '\n' || c == '\r')

/-- Double every inner quote char of a quoted csv field. -/
def csvEscape (f : String) : List Char :=
  f.data.flatMap (fun c => if c == '"' then ['"', '"'] else [c])

/-- Render one field as `to_csv` does (QUOTE_MINIMAL). -/
def toCsvField (f : String) : String :=
  if csvNeedsQuote f then String.mk ('"' :: csvEscape f ++ ['"']) else f

/-- Join chunks with a single separator character between them. -/
def joinSep (sep : Char) : List (List Char) → List Char
  | [] => []
  | x :: xs => x ++ (xs.map (fun y => sep :: y)).flatten

/-- Render one data row as a comma-joined line. -/
def csvLine (r : List String) : String :=
  String.mk (joinSep ',' (r.map (fun f => (toCsvField f).data)))

/-- The fixed header written by `_get_csv` via the `headers` list. -/
def csvHeader : String := "HOURLY,HOUR,TEMP,RH,WD,WS,PRECIP"

/-- The file content written by `df.to_csv(self.csv_path, index=False)`:
the header line, then one line per forecast row, each line
newline-terminated, no index column. -/
def csvContent (rows : List (List String)) : String :=
  csvHeader ++ "\n" ++ String.join (rows.map (fun r => csvLine r ++ "\n"))

/-- Model of `SpotWx._get_csv`, as an event trace plus the uncaught exception, if
any.  Mirrors the source: GET; on non-200 print the failure; otherwise
find the first script containing `var aDataSet =` (print "not found" when
none); extract the literal with the regex (`.group(1)` on a failed search
raises AttributeError); swap quotes; `json.loads` (raises on failure);
DataFrame with the 7 fixed headers (raises on a width mismatch); write
the csv and print success. -/
def getCsvEvents (url : String) (path : String)
    (oracle : String → HttpResponse) : List Event × Option PyExc :=
  let response := oracle url
  if response.status_code == 200 then
    match response.scripts.find? (fun s => hasADataSet s) with
    | some script =>
      match extractAData script.data with
      | some captured =>
        match jsonParse (swapQuotes captured) with
        | some rows =>
          if rows.all (fun r => r.length == 7) then
            ([.httpGet url, .writeFile path (csvContent rows),
              .print "CSV file has been saved successfully."], none)
          else ([.httpGet url], some .pandasError)
        | none => ([.httpGet url], some .jsonDecodeError)
      | none => ([.httpGet url], some .attributeError)
    | none =>
      ([.httpGet url,
        .print "JavaScript variable \"aDataSet\" not found in the HTML content."],
       none)
  else
    ([.httpGet url,
      .print ("Failed to retrieve data. Status code: "
        ++ toString response.status_code)],
     none)

/-- Model of `SpotWx.getSpotWx`: verify, then build the URL, then fetch and save.
A validation failure propagates before any network activity. -/
def getSpotWx (st : SpotWxState) (oracle : String → HttpResponse) :
    List Event × Option PyExc :=
  match verify_inputs st with
  | .error e => ([], some e)
  | .ok _ => getCsvEvents (createUrl st) (pyStr st.csv_path) oracle

/-- Outcome of the `__main__` block. -/
inductive CliOutcome where
  | usageExit
  | ran (result : List Event × Option PyExc)
deriving DecidableEq

/-- The `__main__` block: with exactly six positional arguments the six
`sys.argv` strings are passed to the constructor unconverted; otherwise a
usage message is printed and the process exits with status 1. -/
def mainWith (argv : List String) (oracle : String → HttpResponse) :
    CliOutcome :=
  match argv with
  | [p, m, la, lo, tz, d] =>
    .ran (getSpotWx
      (mkSpotWx (.str p) (.str m) (.str la) (.str lo) (.str tz) (.str d))
      oracle)
  | _ => .usageExit

/-- Render one field as a quoted string of the embedded literal, with
quote character `q`. -/
def strRender (q : Char) (f : String) : List Char := q :: f.data ++ [q]

/-- Render a row's field list (comma separated, no brackets). -/
def fieldsRender (q : Char) : List String → List Char
  | [] => []
  | f :: fs => strRender q f ++ (fs.map (fun g => ',' :: strRender q g)).flatten

/-- Render one row of the embedded literal. -/
def rowRender (q : Char) (r : List String) : List Char :=
  '[' :: fieldsRender q r ++ [']']

/-- Render the row list (comma separated, no outer brackets). -/
def rowsRender (q : Char) : List (List String) → List Char
  | [] => []
  | r :: rs => rowRender q r ++ (rs.map (fun r2 => ',' :: rowRender q r2)).flatten

/-- Render the whole array literal. -/
def litRender (q : Char) (rows : List (List String)) : List Char :=
  '[' :: rowsRender q rows ++ [']']

/-- A provider page's script text embedding the `aDataSet` literal (with
the provider's single quotes), followed by arbitrary further text. -/
def scriptOf (rows : List (List String)) (suffix : String) : String :=
  "var aDataSet = " ++ String.mk (litRender sq rows) ++ ";" ++ suffix

/-- Does the char list contain a `]` immediately followed by a `;`?  Such
a pair inside the literal would end the non-greedy capture early. -/
def hasRBsemi : List Char → Bool
  | [] => false
  | c :: rest => (c == ']' && rest.head? == some ';') || hasRBsemi rest

/-- A field value the naive extraction pipeline handles faithfully: no
quote of either kind, no backslash, no raw control character, and no
embedded `];` pair. -/
def plainField (f : String) : Bool :=
  f.data.all (fun c =>
    !(c == '"') && !(c == sq) && !(c == '\\') && decide (32 ≤ c.toNat))
  && !(hasRBsemi f.data)

/-- Rows of exactly 7 plain fields each. -/
def goodRows (rows : List (List String)) : Bool :=
  rows.all (fun r => r.length == 7 && r.all plainField)

/-- A field free of the csv delimiter, quote char and line terminators
(so `to_csv` writes it verbatim). -/
def csvPlainField (f : String) : Bool :=
  f.data.all (fun c =>
    !(c == ',') && !(c == '"') && !(c == '\n') && !(c == '\r'))

/-- A field free of commas and quote characters only (the round-trip
claim's literal hypothesis). -/
def commaQuoteFree (f : String) : Bool :=
  f.data.all (fun c => !(c == ',') && !(c == '"'))

/-- Split a char list on a separator character; `n` separators yield
`n + 1` chunks. -/
def splitOnChar (sep : Char) : List Char → List (List Char)
  | [] => [[]]
  | c :: rest =>
    if c == sep then [] :: splitOnChar sep rest
    else
      match splitOnChar sep rest with
      | s :: ss => (c :: s) :: ss
      | [] => [[c]]

/-- Modelled from the spec (the repository has no reading code): re-read
the written file and split it back into rows — split the content into
newline-terminated lines, drop the header line, and split each remaining
line on the comma delimiter. -/
def readBack (content : String) : List (List String) :=
  ((splitOnChar '\n' content.data).dropLast.tail).map
    (fun ln => (splitOnChar ',' ln).map String.mk)

/-- All six parameters pass every check of `_verify_inputs`. -/
def validParams (st : SpotWxState) : Bool :=
  match st.csv_path, st.model_request, st.lat, st.lon, st.timezone,
      st.display with
  | .str p, .str m, .float _, .float _, .str tz, .str d =>
    strEndsWith p ".csv" && model_keys.contains m
      && timezone_list.contains tz && display_list.contains d
  | _, _, _, _, _, _ => false

/-- A fully valid parameter set (the spec's worked example). -/
def stGfs : SpotWxState :=
  mkSpotWx (.str "out.csv") (.str "gfs") (.float ⟨"51.0", true⟩)
    (.float ⟨"-114.0", true⟩) (.str "America/Edmonton") (.str "table")

/-- The same parameter set with latitude `0.0` (valid: `0.0` is a float,
and the equator is a legitimate latitude); its truth value is `False`. -/
def stLatZero : SpotWxState :=
  mkSpotWx (.str "out.csv") (.str "gfs") (.float ⟨"0.0", false⟩)
    (.float ⟨"-114.0", true⟩) (.str "America/Edmonton") (.str "table")

/-- An oracle returning a 404 response. -/
def oracle404 : String → HttpResponse := fun _ => ⟨404, []⟩

/-- An oracle returning a 500 response. -/
def oracle500 : String → HttpResponse := fun _ => ⟨500, []⟩

/-- A 200 response whose only script holds no `aDataSet` assignment. -/
def oracleNoData : String → HttpResponse :=
  fun _ => ⟨200, ["var bDataSet = [[]];"]⟩

/-- Two well-formed forecast rows. -/
def rowsDemo : List (List String) :=
  [["1", "00", "12.3", "55", "NW", "10", "0.0"],
   ["2", "01", "11.8", "57", "NNW", "8", "0.2"]]

/-- A 200 response embedding `rowsDemo`. -/
def oracleDemo : String → HttpResponse :=
  fun _ => ⟨200, [scriptOf rowsDemo ""]⟩

/-- One row whose first field is the two quote-free characters `];`. -/
def rowsBad : List (List String) :=
  [["];", "00", "12.3", "55", "NW", "10", "0.0"]]

/-- A 200 response embedding `rowsBad`. -/
def oracleBad : String → HttpResponse :=
  fun _ => ⟨200, [scriptOf rowsBad ""]⟩

/-- One row whose first field contains a newline (but no comma and no
quote character). -/
def rowsNewline : List (List String) :=
  [[String.mk ['a', '\n', 'b'], "00", "1", "2", "3", "4", "5"]]

/-- The validator `_verify_inputs` succeeds exactly on fully valid parameter sets. -/
theorem verify_inputs_ok_iff (st : SpotWxState) :
    verify_inputs st = .ok () ↔ validParams st = true := by
  obtain ⟨cp, mr, la, lo, tz, di, zo⟩ := st
  cases cp <;> cases mr <;> cases la <;> cases lo <;> cases tz <;> cases di <;>
    simp only [verify_inputs, validParams] <;>
    (try (repeat' split)) <;> simp_all

/-- Claim C1 (code bug evidence): the parameter set with `lat = 0.0`
passes validation, yet the built URL omits the `lat` segment entirely —
`_create_url` guards it with `if self.lat:`, which is false for the float
`0.0` — while the spec makes only `title` and `zone` optional.  The other
four segments and the order of the remaining keys match the spec. -/
theorem C1_lat_zero_segment_dropped :
    verify_inputs stLatZero = .ok ()
      ∧ segmentKeys stLatZero = ["model", "lon", "tz", "display"]
      ∧ ¬ (("lat=").data <:+: (createUrl stLatZero).data)
      ∧ segmentKeys stGfs = ["model", "lat", "lon", "tz", "display"] := by
  refine ⟨rfl, by decide, by decide, by decide⟩

/-- Claim C2: on the spec's worked example (csv_path "out.csv", model
"gfs", lat 51.0, lon -114.0, tz America/Edmonton, display "table") the
URL contains `model=gfs_pgrb2&lat=51.0&lon=-114.0&tz=America/Edmonton&display=table`
and contains no `title=` and no `zone=` segment. -/
theorem C2_gfs_example_url :
    (("model=gfs_pgrb2&lat=51.0&lon=-114.0&tz=America/Edmonton&display=table").data
        <:+: (createUrl stGfs).data)
      ∧ ¬ (("title=").data <:+: (createUrl stGfs).data)
      ∧ ¬ (("zone=").data <:+: (createUrl stGfs).data) := by
  refine ⟨by decide, by decide, by decide⟩

/-- Claim C8: URL construction is deterministic — the embedded
`_create_url` is a pure function of the instance state (the URL is built
only from the stored parameters and the fixed dictionaries; no clock,
randomness or other hidden input occurs in its definition), so equal
validated parameter values give byte-identical URL strings. -/
theorem C8_url_deterministic (st1 st2 : SpotWxState)
    (_hval : validParams st1 = true) (heq : st1 = st2) :
    createUrl st1 = createUrl st2 := by
  rw [heq]

/-- Witness for C8 at the spec's worked example. -/
theorem C8_url_deterministic_witness : createUrl stGfs = createUrl stGfs :=
  C8_url_deterministic stGfs stGfs (by decide) rfl

/-- Claim C4: each invalid input is rejected with a distinct error
attributable to its parameter (carrying the accepted-value list where the
message reports one), checks running in source order; a fully valid
parameter set passes (the validator is a pure function, so it has no side
effects); and any validation error halts the pipeline with an empty event
trace — in particular before any network activity. -/
theorem C4_validator_errors (st : SpotWxState)
    (oracle : String → HttpResponse) :
    (∀ p, st.csv_path = .str p → strEndsWith p ".csv" = false →
      verify_inputs st = .error (.valueError "csv_path" []))
    ∧ (∀ p m, st.csv_path = .str p → strEndsWith p ".csv" = true →
        st.model_request = .str m → model_keys.contains m = false →
        verify_inputs st = .error (.valueError "model_request" model_keys))
    ∧ (∀ p m l, st.csv_path = .str p → strEndsWith p ".csv" = true →
        st.model_request = .str m → model_keys.contains m = true →
        st.lat = .str l →
        verify_inputs st = .error (.valueError "lat" []))
    ∧ (∀ p m f l, st.csv_path = .str p → strEndsWith p ".csv" = true →
        st.model_request = .str m → model_keys.contains m = true →
        st.lat = .float f → st.lon = .str l →
        verify_inputs st = .error (.valueError "lon" []))
    ∧ (∀ p m f g tz, st.csv_path = .str p → strEndsWith p ".csv" = true →
        st.model_request = .str m → model_keys.contains m = true →
        st.lat = .float f → st.lon = .float g →
        st.timezone = .str tz → timezone_list.contains tz = false →
        verify_inputs st = .error (.valueError "timezone" timezone_list))
    ∧ (∀ p m f g tz d, st.csv_path = .str p → strEndsWith p ".csv" = true →
        st.model_request = .str m → model_keys.contains m = true →
        st.lat = .float f → st.lon = .float g →
        st.timezone = .str tz → timezone_list.contains tz = true →
        st.display = .str d → display_list.contains d = false →
        verify_inputs st = .error (.valueError "display" display_list))
    ∧ (validParams st = true → verify_inputs st = .ok ())
    ∧ (∀ e, verify_inputs st = .error e → getSpotWx st oracle = ([], some e)) := by
  refine ⟨?_, ?_, ?_, ?_, ?_, ?_, ?_, ?_⟩
  · intro p hp he
    simp [verify_inputs, hp, he]
  · intro p m hp he hm hmk
    replace hmk : m ∉ model_keys := by simpa using hmk
    simp [verify_inputs, hp, he, hm, hmk]
  · intro p m l hp he hm hmk hl
    replace hmk : m ∈ model_keys := by simpa using hmk
    simp [verify_inputs, hp, he, hm, hmk, hl]
  · intro p m f l hp he hm hmk hf hl
    replace hmk : m ∈ model_keys := by simpa using hmk
    simp [verify_inputs, hp, he, hm, hmk, hf, hl]
  · intro p m f g tz hp he hm hmk hf hg htz htzk
    replace hmk : m ∈ model_keys := by simpa using hmk
    replace htzk : tz ∉ timezone_list := by simpa using htzk
    simp [verify_inputs, hp, he, hm, hmk, hf, hg, htz, htzk]
  · intro p m f g tz d hp he hm hmk hf hg htz htzk hd hdk
    replace hmk : m ∈ model_keys := by simpa using hmk
    replace htzk : tz ∈ timezone_list := by simpa using htzk
    replace hdk : d ∉ display_list := by simpa using hdk
    simp [verify_inputs, hp, he, hm, hmk, hf, hg, htz, htzk, hd, hdk]
  · intro h
    exact (verify_inputs_ok_iff st).mpr h
  · intro e he
    simp [getSpotWx, he]

/-- Witness for C4: the csv_path error at a concrete bad path, and
success at the spec's worked example. -/
theorem C4_validator_errors_witness :
    verify_inputs (mkSpotWx (.str "out.txt") (.str "gfs")
        (.float ⟨"51.0", true⟩) (.float ⟨"-114.0", true⟩)
        (.str "America/Edmonton") (.str "table"))
      = .error (.valueError "csv_path" [])
    ∧ verify_inputs stGfs = .ok () := by
  constructor
  · exact (C4_validator_errors _ oracle404).1 "out.txt" rfl (by decide)
  · exact (C4_validator_errors stGfs oracle404).2.2.2.2.2.2.1 (by decide)

/-- Claim C3 (amended): every command-line invocation with exactly six
positional arguments passes all six `sys.argv` values to the constructor
as strings, so validation always raises a `ValueError` — on the first
failing check in source order, which is the `lat` type check whenever the
`csv_path` and `model_request` checks pass — and the pipeline never
reaches URL construction or the network call (the event trace is empty). -/
theorem C3_cli_always_fails_validation (argv : List String)
    (oracle : String → HttpResponse) (h6 : argv.length = 6) :
    ∃ e : PyExc,
      mainWith argv oracle = .ran ([], some e)
      ∧ (∃ param accepted, e = .valueError param accepted)
      ∧ (∀ p m la lo tz d, argv = [p, m, la, lo, tz, d] →
          strEndsWith p ".csv" = true → model_keys.contains m = true →
          e = .valueError "lat" []) := by
  rcases argv with _ | ⟨p, _ | ⟨m, _ | ⟨la, _ | ⟨lo, _ | ⟨tz, _ | ⟨d, _ | ⟨x, rest⟩⟩⟩⟩⟩⟩⟩ <;>
    simp only [List.length] at h6 <;> try omega
  by_cases hp : strEndsWith p ".csv" = true
  · by_cases hm : model_keys.contains m = true
    · refine ⟨.valueError "lat" [], ?_, ⟨"lat", [], rfl⟩, fun _ _ _ _ _ _ _ _ _ => rfl⟩
      replace hm : m ∈ model_keys := by simpa using hm
      simp [mainWith, getSpotWx, verify_inputs, mkSpotWx, hp, hm]
    · replace hm : m ∉ model_keys := by simpa using hm
      refine ⟨.valueError "model_request" model_keys, ?_,
        ⟨"model_request", model_keys, rfl⟩, ?_⟩
      · simp [mainWith, getSpotWx, verify_inputs, mkSpotWx, hp, hm]
      · intro p2 m2 _ _ _ _ heq _ hm2
        have h := heq.symm
        simp only [List.cons.injEq, and_true] at h
        obtain ⟨rfl, rfl, -, -, -, -⟩ := h
        exact absurd (by simpa using hm2) hm
  · replace hp : ¬ (".csv").data <:+ p.data := by
      simpa [strEndsWith] using hp
    refine ⟨.valueError "csv_path" [], ?_, ⟨"csv_path", [], rfl⟩, ?_⟩
    · simp [mainWith, getSpotWx, verify_inputs, mkSpotWx, strEndsWith, hp]
    · intro p2 m2 _ _ _ _ heq hp2 _
      have h := heq.symm
      simp only [List.cons.injEq, and_true] at h
      obtain ⟨rfl, -, -, -, -, -⟩ := h
      rw [strEndsWith, decide_eq_true_iff] at hp2
      exact absurd hp2 hp

/-- Witness for C3 (amended) at a concrete six-argument invocation. -/
theorem C3_cli_always_fails_validation_witness :
    ∃ e : PyExc,
      mainWith ["out.csv", "gfs", "51.0", "-114.0", "America/Edmonton",
        "table"] oracle404 = .ran ([], some e)
      ∧ (∃ param accepted, e = .valueError param accepted)
      ∧ (∀ p m la lo tz d,
          ["out.csv", "gfs", "51.0", "-114.0", "America/Edmonton", "table"]
            = [p, m, la, lo, tz, d] →
          strEndsWith p ".csv" = true → model_keys.contains m = true →
          e = .valueError "lat" []) :=
  C3_cli_always_fails_validation
    ["out.csv", "gfs", "51.0", "-114.0", "America/Edmonton", "table"]
    oracle404 rfl

/-- Counterexample to C3 as stated: a six-argument invocation whose
`csv_path` lacks the `.csv` suffix raises the `csv_path` `ValueError`,
not the `lat` one — the `lat` check is only reached when the earlier
checks pass. -/
theorem C3_counterexample :
    mainWith ["out.txt", "gfs", "51.0", "-114.0", "America/Edmonton",
      "table"] oracle404 = .ran ([], some (.valueError "csv_path" []))
    ∧ PyExc.valueError "csv_path" [] ≠ PyExc.valueError "lat" [] := by
  refine ⟨by decide, by decide⟩

/-- Appending strings concatenates the char lists: `(s ++ t).data` unfolds to the concatenation of the char lists. -/
theorem str_data_append (s t : String) : (s ++ t).data = s.data ++ t.data :=
  rfl

/-- Claim C5: on any non-success HTTP status, the run consists of the one
GET followed by the failure report carrying the status code; nothing is
extracted, no file is written, no exception escapes, and no retry happens
(exactly one GET event in the trace). -/
theorem C5_transport_failure (st : SpotWxState)
    (oracle : String → HttpResponse)
    (hok : verify_inputs st = .ok ())
    (hstatus : (oracle (createUrl st)).status_code ≠ 200) :
    getSpotWx st oracle
      = ([.httpGet (createUrl st),
          .print ("Failed to retrieve data. Status code: "
            ++ toString (oracle (createUrl st)).status_code)], none)
    ∧ (getSpotWx st oracle).1.countP isGetEvent = 1
    ∧ (∀ e ∈ (getSpotWx st oracle).1, isWriteEvent e = false) := by
  have hb : ((oracle (createUrl st)).status_code == 200) = false := by
    simpa using hstatus
  have h1 : getSpotWx st oracle
      = ([.httpGet (createUrl st),
          .print ("Failed to retrieve data. Status code: "
            ++ toString (oracle (createUrl st)).status_code)], none) := by
    simp [getSpotWx, hok, getCsvEvents, hb]
  refine ⟨h1, ?_, ?_⟩
  · rw [h1]
    rfl
  · rw [h1]
    intro e he
    simp only [List.mem_cons, List.not_mem_nil, or_false] at he
    rcases he with rfl | rfl <;> rfl

/-- Witness for C5: the valid example parameters against a 500 response. -/
theorem C5_transport_failure_witness :
    getSpotWx stGfs oracle500
      = ([.httpGet (createUrl stGfs),
          .print "Failed to retrieve data. Status code: 500"], none)
    ∧ (getSpotWx stGfs oracle500).1.countP isGetEvent = 1
    ∧ (∀ e ∈ (getSpotWx stGfs oracle500).1, isWriteEvent e = false) :=
  C5_transport_failure stGfs oracle500 rfl (by decide)

/-- Claim C6: on a 200 response none of whose script blocks contains the
`var aDataSet =` assignment, the run reports the "not found" condition,
writes no file and raises no exception; and that report is distinct from
every transport-failure report. -/
theorem C6_extraction_miss (st : SpotWxState)
    (oracle : String → HttpResponse)
    (hok : verify_inputs st = .ok ())
    (hstatus : (oracle (createUrl st)).status_code = 200)
    (hn : ∀ s ∈ (oracle (createUrl st)).scripts, hasADataSet s = false) :
    getSpotWx st oracle
      = ([.httpGet (createUrl st),
          .print "JavaScript variable \"aDataSet\" not found in the HTML content."],
         none)
    ∧ (∀ e ∈ (getSpotWx st oracle).1, isWriteEvent e = false)
    ∧ (∀ code : Nat,
        "JavaScript variable \"aDataSet\" not found in the HTML content."
          ≠ "Failed to retrieve data. Status code: " ++ toString code) := by
  have hfind : (oracle (createUrl st)).scripts.find? (fun s => hasADataSet s)
      = none := by
    rw [List.find?_eq_none]
    intro s hs
    simp [hn s hs]
  have h1 : getSpotWx st oracle
      = ([.httpGet (createUrl st),
          .print "JavaScript variable \"aDataSet\" not found in the HTML content."],
         none) := by
    simp [getSpotWx, hok, getCsvEvents, hstatus, hfind]
  refine ⟨h1, ?_, ?_⟩
  · rw [h1]
    intro e he
    simp only [List.mem_cons, List.not_mem_nil, or_false] at he
    rcases he with rfl | rfl <;> rfl
  · intro code h
    have h2 := congrArg List.head? (congrArg String.data h)
    rw [str_data_append] at h2
    rw [show ("Failed to retrieve data. Status code: ").data
        = 'F' :: ("ailed to retrieve data. Status code: ").data from rfl] at h2
    simp only [List.cons_append, List.head?_cons] at h2
    exact absurd h2 (by decide)

/-- The key of the model segment, whatever the code value. -/
theorem segKeyOf_model (r : String) : segKeyOf ("model=" ++ r) = "model" := rfl

/-- The key of the title segment, whatever the title value. -/
theorem segKeyOf_title (r : String) : segKeyOf ("&title=" ++ r) = "title" := rfl

/-- The key of the lat segment, whatever the rendered float. -/
theorem segKeyOf_lat (r : String) : segKeyOf ("&lat=" ++ r) = "lat" := rfl

/-- The key of the lon segment, whatever the rendered float. -/
theorem segKeyOf_lon (r : String) : segKeyOf ("&lon=" ++ r) = "lon" := rfl

/-- The key of the zone segment, whatever the zone value. -/
theorem segKeyOf_zone (r : String) : segKeyOf ("&zone=" ++ r) = "zone" := rfl

/-- The key of the tz segment, whatever the timezone value. -/
theorem segKeyOf_tz (r : String) : segKeyOf ("&tz=" ++ r) = "tz" := rfl

/-- The key of the display segment, whatever the display value. -/
theorem segKeyOf_display (r : String) :
    segKeyOf ("&display=" ++ r) = "display" := rfl

/-- Every allow-listed timezone name is a nonempty (hence truthy) string. -/
theorem mem_timezone_ne_empty {s : String} (h : s ∈ timezone_list) :
    (s == "") = false := by
  fin_cases h <;> rfl

/-- Both allow-listed display modes are nonempty (hence truthy) strings. -/
theorem mem_display_ne_empty {s : String} (h : s ∈ display_list) :
    (s == "") = false := by
  fin_cases h <;> rfl

/-- Witness for C6: the valid example parameters against a 200 response
whose only script holds no `aDataSet` assignment. -/
theorem C6_extraction_miss_witness :
    getSpotWx stGfs oracleNoData
      = ([.httpGet (createUrl stGfs),
          .print "JavaScript variable \"aDataSet\" not found in the HTML content."],
         none)
    ∧ (∀ e ∈ (getSpotWx stGfs oracleNoData).1, isWriteEvent e = false)
    ∧ (∀ code : Nat,
        "JavaScript variable \"aDataSet\" not found in the HTML content."
          ≠ "Failed to retrieve data. Status code: " ++ toString code) :=
  C6_extraction_miss stGfs oracleNoData rfl rfl (by decide)

/-- Inversion of `validParams`: the shapes and memberships of the six
parameters of a valid state. -/
theorem validParams_shape (st : SpotWxState) (h : validParams st = true) :
    ∃ pp mm f g tzz dd,
      st = ⟨.str pp, .str mm, .float f, .float g, .str tzz, .str dd, st.zone⟩
      ∧ strEndsWith pp ".csv" = true ∧ mm ∈ model_keys
      ∧ tzz ∈ timezone_list ∧ dd ∈ display_list := by
  obtain ⟨cp, mr, la, lo, tz, di, zo⟩ := st
  cases cp <;> cases mr <;> cases la <;> cases lo <;> cases tz <;> cases di <;>
    simp only [validParams, Bool.and_eq_true] at h <;>
    try exact absurd h (by decide)
  exact ⟨_, _, _, _, _, _, rfl, h.1.1.1, by simpa using h.1.1.2,
    by simpa using h.1.2, by simpa using h.2⟩

/-- A registered model key maps to a truthy (nonempty) model code. -/
theorem model_code_truthy {mm : String} (h : mm ∈ model_keys) :
    optTruthy (dictGet model_dict mm) = true := by
  fin_cases h <;> rfl

/-- A registered model key has a truthy title exactly when it is one of
the two meteocode keys. -/
theorem title_truthy_iff {mm : String} (h : mm ∈ model_keys) :
    optTruthy (dictGet title_dict mm)
      = (mm == "short_meteocode" || mm == "ext_meteocode") := by
  fin_cases h <;> rfl

/-- The segment keys of the URL built from validated-shaped parameters:
`model`, then `title` when the title lookup is truthy, then `lat`/`lon`
when the floats are truthy, then `tz` and `display`; never `zone`. -/
theorem segmentKeys_shape (pp mm tzz dd : String) (f g : PyFloat)
    (hmT : optTruthy (dictGet model_dict mm) = true)
    (htzz : (tzz == "") = false) (hdd : (dd == "") = false) :
    segmentKeys (mkSpotWx (.str pp) (.str mm) (.float f) (.float g)
        (.str tzz) (.str dd))
      = ["model"]
        ++ (if optTruthy (dictGet title_dict mm) then ["title"] else [])
        ++ (if f.truthy then ["lat"] else [])
        ++ (if g.truthy then ["lon"] else [])
        ++ ["tz", "display"] := by
  have h1 : modelOf (mkSpotWx (.str pp) (.str mm) (.float f) (.float g)
      (.str tzz) (.str dd)) = dictGet model_dict mm := rfl
  have h2 : titleOf (mkSpotWx (.str pp) (.str mm) (.float f) (.float g)
      (.str tzz) (.str dd)) = dictGet title_dict mm := rfl
  have h3 : pyTruthy (mkSpotWx (.str pp) (.str mm) (.float f) (.float g)
      (.str tzz) (.str dd)).lat = f.truthy := rfl
  have h4 : pyTruthy (mkSpotWx (.str pp) (.str mm) (.float f) (.float g)
      (.str tzz) (.str dd)).lon = g.truthy := rfl
  have h5 : pyTruthy (mkSpotWx (.str pp) (.str mm) (.float f) (.float g)
      (.str tzz) (.str dd)).timezone = true := by
    show (!(tzz == "")) = true
    rw [htzz]
    rfl
  have h6 : pyTruthy (mkSpotWx (.str pp) (.str mm) (.float f) (.float g)
      (.str tzz) (.str dd)).display = true := by
    show (!(dd == "")) = true
    rw [hdd]
    rfl
  have h7 : optTruthy (mkSpotWx (.str pp) (.str mm) (.float f) (.float g)
      (.str tzz) (.str dd)).zone = false := rfl
  rw [segmentKeys, urlSegments, h1, h2, h3, h4, h5, h6, h7, hmT]
  cases hft : f.truthy <;> cases hgt : g.truthy <;>
    cases htt : optTruthy (dictGet title_dict mm) <;>
    simp [segKeyOf_model, segKeyOf_title, segKeyOf_lat, segKeyOf_lon,
      segKeyOf_tz, segKeyOf_display]

/-- Claim C10: for every constructed instance, `zone` is `None` (it is
initialized to `None` in `__init__` and never assigned), so the URL never
carries a `zone` segment; and the URL carries a `title` segment exactly
when `model_request` is `short_meteocode` or `ext_meteocode`, the only
keys of `title_dict`. -/
theorem C10_zone_absent_title_iff (p m lat lon tz d : PyVal)
    (hok : verify_inputs (mkSpotWx p m lat lon tz d) = .ok ()) :
    (mkSpotWx p m lat lon tz d).zone = none
    ∧ "zone" ∉ segmentKeys (mkSpotWx p m lat lon tz d)
    ∧ ("title" ∈ segmentKeys (mkSpotWx p m lat lon tz d)
        ↔ m = .str "short_meteocode" ∨ m = .str "ext_meteocode") := by
  have hv := (verify_inputs_ok_iff _).mp hok
  obtain ⟨pp, mm, f, g, tzz, dd, hst, hpp, hmk, htzk, hdk⟩ :=
    validParams_shape _ hv
  have hp : p = .str pp := congrArg SpotWxState.csv_path hst
  have hm : m = .str mm := congrArg SpotWxState.model_request hst
  have hla : lat = .float f := congrArg SpotWxState.lat hst
  have hlo : lon = .float g := congrArg SpotWxState.lon hst
  have htz : tz = .str tzz := congrArg SpotWxState.timezone hst
  have hd : d = .str dd := congrArg SpotWxState.display hst
  subst hp hm hla hlo htz hd
  refine ⟨rfl, ?_⟩
  rw [segmentKeys_shape pp mm tzz dd f g (model_code_truthy hmk)
    (mem_timezone_ne_empty htzk) (mem_display_ne_empty hdk),
    title_truthy_iff hmk]
  cases hb : (mm == "short_meteocode" || mm == "ext_meteocode")
  case false =>
    constructor
    · cases hft : f.truthy <;> cases hgt : g.truthy <;> decide
    · constructor
      · intro hmem
        exact absurd hmem
          (by cases hft : f.truthy <;> cases hgt : g.truthy <;> decide)
      · intro hq
        have hq2 : mm = "short_meteocode" ∨ mm = "ext_meteocode" := by
          rcases hq with hq | hq
          · exact .inl (by injection hq)
          · exact .inr (by injection hq)
        rcases hq2 with rfl | rfl <;> simp at hb
  case true =>
    have hq : mm = "short_meteocode" ∨ mm = "ext_meteocode" := by
      have hb2 := hb
      simp only [Bool.or_eq_true, beq_iff_eq] at hb2
      exact hb2
    constructor
    · cases hft : f.truthy <;> cases hgt : g.truthy <;> decide
    · constructor
      · intro _
        rcases hq with rfl | rfl
        · exact .inl rfl
        · exact .inr rfl
      · intro _
        cases hft : f.truthy <;> cases hgt : g.truthy <;> decide

/-- Witness for C10 at the spec's worked example (model `gfs`). -/
theorem C10_zone_absent_title_iff_witness :
    stGfs.zone = none
    ∧ "zone" ∉ segmentKeys stGfs
    ∧ ("title" ∈ segmentKeys stGfs
        ↔ PyVal.str "gfs" = .str "short_meteocode"
          ∨ PyVal.str "gfs" = .str "ext_meteocode") :=
  C10_zone_absent_title_iff (.str "out.csv") (.str "gfs")
    (.float ⟨"51.0", true⟩) (.float ⟨"-114.0", true⟩)
    (.str "America/Edmonton") (.str "table") rfl

/-- Unfolding `hasRBsemi` one character at a time. -/
theorem hasRBsemi_cons (c : Char) (l : List Char) :
    hasRBsemi (c :: l) = ((c == ']' && l.head? == some ';') || hasRBsemi l) :=
  rfl

/-- Freedom from `];` is preserved by concatenation when the right part does
not begin with `;`. -/
theorem hasRBsemi_append (a b : List Char) (ha : hasRBsemi a = false)
    (hb : hasRBsemi b = false) (hbh : (b.head? == some ';') = false) :
    hasRBsemi (a ++ b) = false := by
  induction a with
  | nil => simpa using hb
  | cons c a' ih =>
    rw [hasRBsemi_cons] at ha
    rw [Bool.or_eq_false_iff] at ha
    rw [List.cons_append, hasRBsemi_cons, Bool.or_eq_false_iff]
    refine ⟨?_, ih ha.2⟩
    cases a' with
    | nil => exact Bool.and_eq_false_iff.mpr (.inr (by simpa using hbh))
    | cons c' a'' => exact ha.1

/-- A plain field is `];`-free. -/
theorem plainField_hasRBsemi {f : String} (hf : plainField f = true) :
    hasRBsemi f.data = false := by
  have h := (Bool.and_eq_true _ _).mp hf
  simpa using h.2

/-- The quoted rendering of a plain field is `];`-free. -/
theorem hasRBsemi_strRender {f : String} (hf : plainField f = true) :
    hasRBsemi (strRender sq f) = false := by
  have h2 := plainField_hasRBsemi hf
  have h4 : hasRBsemi (sq :: f.data) = false := by
    rw [hasRBsemi_cons, Bool.or_eq_false_iff]
    exact ⟨Bool.and_eq_false_iff.mpr (.inl rfl), h2⟩
  rw [strRender]
  exact hasRBsemi_append _ _ h4 rfl rfl

/-- The comma-separated tail of a rendered row is `];`-free and does not
begin with `;`. -/
theorem hasRBsemi_fieldsTail {fs : List String}
    (h : fs.all plainField = true) :
    hasRBsemi ((fs.map (fun g => ',' :: strRender sq g)).flatten) = false
    ∧ ((((fs.map (fun g => ',' :: strRender sq g)).flatten).head?
        == some ';') = false) := by
  induction fs with
  | nil => exact ⟨rfl, rfl⟩
  | cons g gs ih =>
    have hg : plainField g = true ∧ gs.all plainField = true := by
      simpa using h
    obtain ⟨ih1, ih2⟩ := ih hg.2
    constructor
    · rw [List.map_cons, List.flatten_cons, List.cons_append, hasRBsemi_cons,
        Bool.or_eq_false_iff]
      refine ⟨rfl, ?_⟩
      exact hasRBsemi_append _ _ (hasRBsemi_strRender hg.1) ih1 ih2
    · rw [List.map_cons, List.flatten_cons, List.cons_append]
      rfl

/-- The rendered field list of a row of plain fields is `];`-free. -/
theorem hasRBsemi_fieldsRender {r : List String}
    (h : r.all plainField = true) :
    hasRBsemi (fieldsRender sq r) = false := by
  cases r with
  | nil => rfl
  | cons f fs =>
    have hf : plainField f = true ∧ fs.all plainField = true := by simpa using h
    obtain ⟨h1, h2⟩ := hasRBsemi_fieldsTail hf.2
    rw [fieldsRender]
    exact hasRBsemi_append _ _ (hasRBsemi_strRender hf.1) h1 h2

/-- A rendered row of plain fields is `];`-free. -/
theorem hasRBsemi_rowRender {r : List String}
    (h : r.all plainField = true) :
    hasRBsemi (rowRender sq r) = false := by
  have h4 : hasRBsemi ('[' :: fieldsRender sq r) = false := by
    rw [hasRBsemi_cons, Bool.or_eq_false_iff]
    exact ⟨Bool.and_eq_false_iff.mpr (.inl rfl), hasRBsemi_fieldsRender h⟩
  rw [rowRender]
  exact hasRBsemi_append _ _ h4 rfl rfl

/-- The comma-separated tail of the rendered row list is `];`-free and
does not begin with `;`. -/
theorem hasRBsemi_rowsTail {rs : List (List String)}
    (h : rs.all (fun r => r.all plainField) = true) :
    hasRBsemi ((rs.map (fun r => ',' :: rowRender sq r)).flatten) = false
    ∧ ((((rs.map (fun r => ',' :: rowRender sq r)).flatten).head?
        == some ';') = false) := by
  induction rs with
  | nil => exact ⟨rfl, rfl⟩
  | cons r rs' ih =>
    have hr : r.all plainField = true ∧ rs'.all (fun r2 => r2.all plainField) = true := by
      simpa using h
    obtain ⟨ih1, ih2⟩ := ih hr.2
    constructor
    · rw [List.map_cons, List.flatten_cons, List.cons_append, hasRBsemi_cons,
        Bool.or_eq_false_iff]
      refine ⟨rfl, ?_⟩
      exact hasRBsemi_append _ _ (hasRBsemi_rowRender hr.1) ih1 ih2
    · rw [List.map_cons, List.flatten_cons, List.cons_append]
      rfl

/-- The rendered row list of plain rows is `];`-free, so the non-greedy
capture will not end early inside it. -/
theorem hasRBsemi_rowsRender {rows : List (List String)}
    (h : rows.all (fun r => r.all plainField) = true) :
    hasRBsemi (rowsRender sq rows) = false := by
  cases rows with
  | nil => rfl
  | cons r rs =>
    have hr : r.all plainField = true ∧ rs.all (fun r2 => r2.all plainField) = true := by
      simpa using h
    obtain ⟨h1, h2⟩ := hasRBsemi_rowsTail hr.2
    rw [rowsRender]
    exact hasRBsemi_append _ _ (hasRBsemi_rowRender hr.1) h1 h2

/-- The non-greedy scan stops exactly at the `];` that follows a
`];`-free body. -/
theorem scanToTerm_safe (inner : List Char) (suffix : List Char)
    (h : hasRBsemi inner = false) :
    scanToTerm (inner ++ ']' :: ';' :: suffix) = some (inner ++ [']']) := by
  induction inner with
  | nil => simp [scanToTerm]
  | cons c inner' ih =>
    rw [hasRBsemi_cons, Bool.or_eq_false_iff] at h
    rw [List.cons_append, scanToTerm]
    have hcond : ¬ (c = ']' ∧ (inner' ++ ']' :: ';' :: suffix).head? = some ';') := by
      cases inner' with
      | nil => rintro ⟨-, hh⟩; simp at hh
      | cons c' inner'' =>
        rintro ⟨rfl, hh⟩
        rw [List.cons_append, List.head?_cons, Option.some.injEq] at hh
        subst hh
        simpa using h.1
    rw [if_neg hcond, ih h.2]
    rfl

/-- A list is a prefix of itself followed by anything (boolean form). -/
theorem isPrefixOf_append_self (l rest : List Char) :
    l.isPrefixOf (l ++ rest) = true := by
  induction l with
  | nil => simp
  | cons c l' ih =>
    simp only [List.cons_append, List.isPrefixOf_cons₂_self]
    exact ih

/-- The regex matches at position 0 when the text starts with
`var aDataSet = [` and the scan finds the terminator. -/
theorem extractAData_at_head (rest m : List Char)
    (hscan : scanToTerm rest = some m) :
    extractAData (aPatL ++ rest) = some ('[' :: m) := by
  have hshape : aPatL ++ rest = 'v' :: (("ar aDataSet = [").data ++ rest) := rfl
  have hpre : aPatL.isPrefixOf ('v' :: (("ar aDataSet = [").data ++ rest))
      = true := by
    rw [← hshape]
    exact isPrefixOf_append_self aPatL rest
  have hdrop : ('v' :: (("ar aDataSet = [").data ++ rest)).drop aPatL.length
      = rest := by
    rw [← hshape]
    exact List.drop_left aPatL rest
  rw [hshape, extractAData, if_pos hpre, hdrop, hscan]

/-- Character-level facts about a plain field. -/
theorem plainField_chars {f : String} (hf : plainField f = true) :
    ∀ c ∈ f.data, (c == '"') = false ∧ (c == sq) = false
      ∧ (c == '\\') = false ∧ 32 ≤ c.toNat := by
  intro c hc
  have hf1 := ((Bool.and_eq_true _ _).mp hf).1
  have h := List.all_eq_true.mp hf1 c hc
  simp only [Bool.and_eq_true, Bool.not_eq_true', decide_eq_true_eq] at h
  exact ⟨h.1.1.1, h.1.1.2, h.1.2, h.2⟩

/-- Quote swapping distributes over concatenation. -/
theorem swapQuotes_append (a b : List Char) :
    swapQuotes (a ++ b) = swapQuotes a ++ swapQuotes b :=
  List.map_append _ a b

/-- Swapping quotes in the single-quoted rendering of a plain field gives
its double-quoted rendering. -/
theorem swapQuotes_strRender {f : String} (hf : plainField f = true) :
    swapQuotes (strRender sq f) = strRender '"' f := by
  show List.map _ ((sq :: f.data) ++ [sq]) = ('"' :: f.data) ++ ['"']
  rw [List.map_append, List.map_cons]
  have hid : ∀ c ∈ f.data, (if c == sq then '"' else c) = id c := by
    intro c hc
    rw [(plainField_chars hf c hc).2.1]
    rfl
  rw [List.map_congr_left hid, List.map_id]
  rfl

/-- Swapping quotes in the comma-prefixed tail of a rendered row. -/
theorem swapQuotes_fieldsTail {fs : List String}
    (h : fs.all plainField = true) :
    swapQuotes ((fs.map (fun g => ',' :: strRender sq g)).flatten)
      = (fs.map (fun g => ',' :: strRender '"' g)).flatten := by
  induction fs with
  | nil => rfl
  | cons g gs ih =>
    have hg : plainField g = true ∧ gs.all plainField = true := by simpa using h
    rw [List.map_cons, List.map_cons, List.flatten_cons, List.flatten_cons,
      swapQuotes_append]
    congr 1
    · show (if ',' == sq then '"' else ',') :: swapQuotes (strRender sq g)
        = ',' :: strRender '"' g
      rw [swapQuotes_strRender hg.1]
      rfl
    · exact ih hg.2

/-- Swapping quotes in a rendered field list of plain fields. -/
theorem swapQuotes_fieldsRender {r : List String}
    (h : r.all plainField = true) :
    swapQuotes (fieldsRender sq r) = fieldsRender '"' r := by
  cases r with
  | nil => rfl
  | cons f fs =>
    have hf : plainField f = true ∧ fs.all plainField = true := by simpa using h
    rw [fieldsRender, fieldsRender, swapQuotes_append,
      swapQuotes_strRender hf.1, swapQuotes_fieldsTail hf.2]

/-- Swapping quotes in a rendered row of plain fields. -/
theorem swapQuotes_rowRender {r : List String}
    (h : r.all plainField = true) :
    swapQuotes (rowRender sq r) = rowRender '"' r := by
  show swapQuotes (('[' :: fieldsRender sq r) ++ [']'])
    = ('[' :: fieldsRender '"' r) ++ [']']
  rw [swapQuotes_append]
  congr 1
  show (if '[' == sq then '"' else '[') :: swapQuotes (fieldsRender sq r)
    = '[' :: fieldsRender '"' r
  rw [swapQuotes_fieldsRender h]
  rfl

/-- Swapping quotes in the comma-prefixed tail of the row list. -/
theorem swapQuotes_rowsTail {rs : List (List String)}
    (h : rs.all (fun r => r.all plainField) = true) :
    swapQuotes ((rs.map (fun r => ',' :: rowRender sq r)).flatten)
      = (rs.map (fun r => ',' :: rowRender '"' r)).flatten := by
  induction rs with
  | nil => rfl
  | cons r rs' ih =>
    have hr : r.all plainField = true
        ∧ rs'.all (fun r2 => r2.all plainField) = true := by simpa using h
    rw [List.map_cons, List.map_cons, List.flatten_cons, List.flatten_cons,
      swapQuotes_append]
    congr 1
    · show (if ',' == sq then '"' else ',') :: swapQuotes (rowRender sq r)
        = ',' :: rowRender '"' r
      rw [swapQuotes_rowRender hr.1]
      rfl
    · exact ih hr.2

/-- Swapping quotes in the rendered row list. -/
theorem swapQuotes_rowsRender {rows : List (List String)}
    (h : rows.all (fun r => r.all plainField) = true) :
    swapQuotes (rowsRender sq rows) = rowsRender '"' rows := by
  cases rows with
  | nil => rfl
  | cons r rs =>
    have hr : r.all plainField = true
        ∧ rs.all (fun r2 => r2.all plainField) = true := by simpa using h
    rw [rowsRender, rowsRender, swapQuotes_append,
      swapQuotes_rowRender hr.1, swapQuotes_rowsTail hr.2]

/-- Swapping quotes in the whole rendered literal: the provider's
single-quoted literal becomes the double-quoted (JSON) literal. -/
theorem swapQuotes_litRender {rows : List (List String)}
    (h : rows.all (fun r => r.all plainField) = true) :
    swapQuotes (litRender sq rows) = litRender '"' rows := by
  show swapQuotes (('[' :: rowsRender sq rows) ++ [']'])
    = ('[' :: rowsRender '"' rows) ++ [']']
  rw [swapQuotes_append]
  congr 1
  show (if '[' == sq then '"' else '[') :: swapQuotes (rowsRender sq rows)
    = '[' :: rowsRender '"' rows
  rw [swapQuotes_rowsRender h]
  rfl

/-- The regex capture on a script embedding a plain-field literal is
exactly the rendered literal. -/
theorem extractAData_hit (rows : List (List String)) (suffix : String)
    (hsafe : rows.all (fun r => r.all plainField) = true) :
    extractAData (scriptOf rows suffix).data = some (litRender sq rows) := by
  have hdata : (scriptOf rows suffix).data
      = aPatL ++ (rowsRender sq rows ++ ']' :: ';' :: suffix.data) := by
    rw [scriptOf, str_data_append, str_data_append, str_data_append]
    rw [show (aPatL : List Char) = ("var aDataSet = ").data ++ ['['] from rfl]
    show ("var aDataSet = ").data ++ (('[' :: rowsRender sq rows) ++ [']'])
        ++ [';'] ++ suffix.data = _
    simp [List.append_assoc]
  rw [hdata]
  exact extractAData_at_head _ _
    (scanToTerm_safe _ _ (hasRBsemi_rowsRender hsafe))

/-- One accepted character advances the run. -/
theorem runP_cons_step (c : Char) (rest : List Char) (st st2 : PSt)
    (h : stepP st c = some st2) : runP (c :: rest) st = runP rest st2 := by
  rw [runP, h]

/-- Running the parser over the characters of a plain string body up to
the closing quote accumulates exactly that string. -/
theorem runP_strChars (l : List Char)
    (hl : ∀ c ∈ l, (c == '"') = false ∧ (c == '\\') = false ∧ 32 ≤ c.toNat)
    (rows : List (List String)) (row : List String) (rest : List Char) :
    ∀ acc, runP (l ++ '"' :: rest) (.inStr rows row acc)
      = runP rest (.afterField rows (String.mk (acc.reverse ++ l) :: row)) := by
  induction l with
  | nil =>
    intro acc
    have hstep : stepP (.inStr rows row acc) '"'
        = some (.afterField rows (String.mk acc.reverse :: row)) := by
      simp [stepP]
    rw [List.nil_append, runP_cons_step _ _ _ _ hstep, List.append_nil]
  | cons c l' ih =>
    intro acc
    have hc := hl c (by simp)
    have h1 : ¬ (c = '"') := by simpa using hc.1
    have h2 : ¬ (c = '\\') := by simpa using hc.2.1
    have h3 : ¬ (c.toNat < 32) := by omega
    have hstep : stepP (.inStr rows row acc) c
        = some (.inStr rows row (c :: acc)) := by
      rw [stepP, if_neg h1, if_neg h2, if_neg h3]
    rw [List.cons_append, runP_cons_step _ _ _ _ hstep,
      ih (fun d hd => hl d (by simp [hd])) (c :: acc)]
    congr 3
    simp

/-- Consuming the comma-prefixed remaining fields of a row and the
closing bracket appends those fields to the row accumulator. -/
theorem runP_fieldsTail (fs : List String) (hfs : fs.all plainField = true)
    (rows : List (List String)) (rest : List Char) :
    ∀ row, runP ((fs.map (fun g => ',' :: strRender '"' g)).flatten
        ++ ']' :: rest) (.afterField rows row)
      = runP rest (.afterRow ((row.reverse ++ fs) :: rows)) := by
  induction fs with
  | nil =>
    intro row
    have hstep : stepP (.afterField rows row) ']'
        = some (.afterRow (row.reverse :: rows)) := by
      simp [stepP]
    rw [List.map_nil, List.flatten_nil, List.nil_append,
      runP_cons_step _ _ _ _ hstep, List.append_nil]
  | cons g gs ih =>
    intro row
    have hg : plainField g = true ∧ gs.all plainField = true := by simpa using hfs
    have hstep : stepP (.afterField rows row) ','
        = some (.fieldRequired rows row) := by
      simp [stepP]
    have hstep2 : stepP (.fieldRequired rows row) '"'
        = some (.inStr rows row []) := by
      simp [stepP]
    have hchars : ∀ c ∈ g.data,
        (c == '"') = false ∧ (c == '\\') = false ∧ 32 ≤ c.toNat := by
      intro c hc
      have h := plainField_chars hg.1 c hc
      exact ⟨h.1, h.2.2.1, h.2.2.2⟩
    rw [List.map_cons, List.flatten_cons, List.append_assoc, List.cons_append,
      runP_cons_step _ _ _ _ hstep, strRender, List.append_assoc,
      List.cons_append, runP_cons_step _ _ _ _ hstep2, List.singleton_append,
      runP_strChars g.data hchars rows row _ []]
    show runP _ (.afterField rows (g :: row)) = _
    rw [ih hg.2 (g :: row)]
    have hrv : (g :: row).reverse ++ gs = row.reverse ++ g :: gs := by simp
    rw [hrv]

/-- Consuming one rendered row from the state expecting a row's opening
bracket pushes that row onto the accumulator. -/
theorem runP_row (r : List String) (h : r.all plainField = true)
    (rows : List (List String)) (rest : List Char) :
    runP (fieldsRender '"' r ++ ']' :: rest) (.fieldOrEnd rows [])
      = runP rest (.afterRow (r :: rows)) := by
  cases r with
  | nil =>
    have hstep : stepP (.fieldOrEnd rows []) ']'
        = some (.afterRow ([] :: rows)) := by
      simp [stepP]
    rw [fieldsRender, List.nil_append, runP_cons_step _ _ _ _ hstep]
  | cons f fs =>
    have hf : plainField f = true ∧ fs.all plainField = true := by simpa using h
    have hstep : stepP (.fieldOrEnd rows []) '"'
        = some (.inStr rows [] []) := by
      simp [stepP]
    have hchars : ∀ c ∈ f.data,
        (c == '"') = false ∧ (c == '\\') = false ∧ 32 ≤ c.toNat := by
      intro c hc
      have hcc := plainField_chars hf.1 c hc
      exact ⟨hcc.1, hcc.2.2.1, hcc.2.2.2⟩
    rw [fieldsRender, List.append_assoc, strRender, List.append_assoc,
      List.cons_append, runP_cons_step _ _ _ _ hstep, List.singleton_append,
      runP_strChars f.data hchars rows [] _ []]
    show runP _ (.afterField rows [f]) = _
    rw [runP_fieldsTail fs hf.2 rows rest [f]]
    rfl

/-- Consuming the comma-prefixed remaining rows and the closing outer
bracket reaches the accepting state with all rows in order. -/
theorem runP_rowsTail (rs : List (List String))
    (h : rs.all (fun r => r.all plainField) = true) (rest : List Char) :
    ∀ acc, runP ((rs.map (fun r => ',' :: rowRender '"' r)).flatten
        ++ ']' :: rest) (.afterRow acc)
      = runP rest (.done (acc.reverse ++ rs)) := by
  induction rs with
  | nil =>
    intro acc
    have hstep : stepP (.afterRow acc) ']' = some (.done acc.reverse) := by
      simp [stepP]
    rw [List.map_nil, List.flatten_nil, List.nil_append,
      runP_cons_step _ _ _ _ hstep, List.append_nil]
  | cons r rs' ih =>
    intro acc
    have hr : r.all plainField = true
        ∧ rs'.all (fun r2 => r2.all plainField) = true := by simpa using h
    have hstep : stepP (.afterRow acc) ',' = some (.rowRequired acc) := by
      simp [stepP]
    have hstep2 : stepP (.rowRequired acc) '['
        = some (.fieldOrEnd acc []) := by
      simp [stepP]
    rw [List.map_cons, List.flatten_cons, List.append_assoc, List.cons_append,
      runP_cons_step _ _ _ _ hstep, rowRender, List.append_assoc,
      List.cons_append, runP_cons_step _ _ _ _ hstep2, List.singleton_append,
      runP_row r hr.1 acc _, ih hr.2 (r :: acc)]
    have hrv : (r :: acc).reverse ++ rs' = acc.reverse ++ r :: rs' := by simp
    rw [hrv]

/-- The parser accepts the double-quoted rendering of any plain row list
and returns exactly those rows: the model of `json.loads(json_text)`
succeeding on the normalized literal. -/
theorem jsonParse_litRender (rows : List (List String))
    (h : rows.all (fun r => r.all plainField) = true) :
    jsonParse (litRender '"' rows) = some rows := by
  show runP (rowsRender '"' rows ++ [']']) (.rowOrEnd []) = some rows
  cases rows with
  | nil => rfl
  | cons r rs =>
    have hr : r.all plainField = true
        ∧ rs.all (fun r2 => r2.all plainField) = true := by simpa using h
    have hstep : stepP (.rowOrEnd []) '[' = some (.fieldOrEnd [] []) := by
      simp [stepP]
    rw [rowsRender, List.append_assoc, rowRender, List.append_assoc,
      List.cons_append, runP_cons_step _ _ _ _ hstep, List.singleton_append,
      runP_row r hr.1 [] _, runP_rowsTail rs hr.2 [] [r]]
    rfl

/-- The script text embedding the literal contains the search pattern
`var aDataSet =`. -/
theorem hasADataSet_scriptOf (rows : List (List String)) (suffix : String) :
    hasADataSet (scriptOf rows suffix) = true := by
  rw [hasADataSet, decide_eq_true_iff]
  have h1 : aDataPat <+: ("var aDataSet = ").data := ⟨[' '], rfl⟩
  have h2 : ("var aDataSet = ").data <+: (scriptOf rows suffix).data := by
    rw [scriptOf, str_data_append, str_data_append, str_data_append]
    exact (( List.prefix_append _ _).trans ( List.prefix_append _ _)).trans
      ( List.prefix_append _ _)
  exact (h1.trans h2).isInfix

/-- Claim C7 (amended): on a 200 response embedding an `aDataSet` literal
of rows of 7 plain fields each (plain: no quote of either kind, no
backslash, no control character, no embedded `];`), the run is the GET,
then one write of the requested path whose content is exactly the
`HOURLY,HOUR,TEMP,RH,WD,WS,PRECIP` header line followed by one line per
row in the original order (no index column), then the success message;
no exception. -/
theorem C7_extraction_writes_rows (rows : List (List String))
    (suffix : String) (st : SpotWxState) (oracle : String → HttpResponse)
    (hok : verify_inputs st = .ok ())
    (hgood : goodRows rows = true)
    (horacle : oracle (createUrl st) = ⟨200, [scriptOf rows suffix]⟩) :
    getSpotWx st oracle
      = ([.httpGet (createUrl st),
          .writeFile (pyStr st.csv_path)
            ("HOURLY,HOUR,TEMP,RH,WD,WS,PRECIP\n"
              ++ String.join (rows.map (fun r => csvLine r ++ "\n"))),
          .print "CSV file has been saved successfully."], none) := by
  have hgood2 := hgood
  rw [goodRows, List.all_eq_true] at hgood2
  have hplain : rows.all (fun r => r.all plainField) = true := by
    rw [List.all_eq_true]
    intro r hr
    exact ((Bool.and_eq_true _ _).mp (hgood2 r hr)).2
  have hlen : rows.all (fun r => r.length == 7) = true := by
    rw [List.all_eq_true]
    intro r hr
    exact ((Bool.and_eq_true _ _).mp (hgood2 r hr)).1
  simp only [getSpotWx, hok, getCsvEvents, horacle, List.find?,
    hasADataSet_scriptOf rows suffix, extractAData_hit rows suffix hplain,
    swapQuotes_litRender hplain, jsonParse_litRender rows hplain, hlen,
    beq_self_eq_true, eq_self_iff_true, if_true]
  rfl

/-- Witness for C7 (amended): two concrete rows round the full pipeline
into the expected two-line csv body under the header. -/
theorem C7_extraction_writes_rows_witness :
    getSpotWx stGfs oracleDemo
      = ([.httpGet (createUrl stGfs),
          .writeFile "out.csv"
            ("HOURLY,HOUR,TEMP,RH,WD,WS,PRECIP\n"
              ++ String.join (rowsDemo.map (fun r => csvLine r ++ "\n"))),
          .print "CSV file has been saved successfully."], none) :=
  C7_extraction_writes_rows rowsDemo "" stGfs oracleDemo rfl (by decide) rfl

/-- Counterexample to C7 as stated: the quote-free field `];` ends the
non-greedy capture early, `json.loads` then fails on the truncated text,
and the run aborts with an exception after the GET — no file is written
and no row is extracted, although the body does embed a 1-row literal of
7 quote-free fields. -/
theorem C7_counterexample :
    getSpotWx stGfs oracleBad
      = ([.httpGet (createUrl stGfs)], some .jsonDecodeError)
    ∧ (∀ e ∈ (getSpotWx stGfs oracleBad).1, isWriteEvent e = false) := by
  refine ⟨by decide, by decide⟩

/-- Splitting at the first separator after a separator-free chunk. -/
theorem splitOnChar_sep (sep : Char) (a b : List Char)
    (ha : ∀ c ∈ a, (c == sep) = false) :
    splitOnChar sep (a ++ sep :: b) = a :: splitOnChar sep b := by
  induction a with
  | nil =>
    rw [List.nil_append, splitOnChar, if_pos (by simp)]
  | cons c a' ih =>
    have hc : (c == sep) = false := ha c (by simp)
    rw [List.cons_append, splitOnChar, if_neg (by simp [hc]),
      ih (fun d hd => ha d (by simp [hd]))]

/-- A separator-free list is one single chunk. -/
theorem splitOnChar_no (sep : Char) (a : List Char)
    (ha : ∀ c ∈ a, (c == sep) = false) :
    splitOnChar sep a = [a] := by
  induction a with
  | nil => rfl
  | cons c a' ih =>
    have hc : (c == sep) = false := ha c (by simp)
    rw [splitOnChar, if_neg (by simp [hc]),
      ih (fun d hd => ha d (by simp [hd]))]

/-- Members of a separator-joined list are the separator or chunk
members. -/
theorem mem_joinSep {c : Char} {sep : Char} {pieces : List (List Char)}
    (hc : c ∈ joinSep sep pieces) : c = sep ∨ ∃ p ∈ pieces, c ∈ p := by
  cases pieces with
  | nil => cases hc
  | cons x xs =>
    rw [joinSep, List.mem_append] at hc
    rcases hc with hx | hfl
    · exact .inr ⟨x, by simp, hx⟩
    · rw [List.mem_flatten] at hfl
      obtain ⟨l, hl, hcl⟩ := hfl
      rw [List.mem_map] at hl
      obtain ⟨p, hp, rfl⟩ := hl
      rcases List.mem_cons.mp hcl with rfl | hcp
      · exact .inl rfl
      · exact .inr ⟨p, by simp [hp], hcp⟩

/-- Splitting undoes separator-joining of separator-free chunks. -/
theorem splitOnChar_joinSep (sep : Char) (x : List Char)
    (xs : List (List Char))
    (h : ∀ p ∈ x :: xs, ∀ c ∈ p, (c == sep) = false) :
    splitOnChar sep (joinSep sep (x :: xs)) = x :: xs := by
  induction xs generalizing x with
  | nil =>
    rw [joinSep, List.map_nil, List.flatten_nil, List.append_nil]
    exact splitOnChar_no sep x (h x (by simp))
  | cons y ys ih =>
    rw [joinSep, List.map_cons, List.flatten_cons, List.cons_append,
      splitOnChar_sep sep x _ (h x (by simp))]
    have h2 : ∀ p ∈ y :: ys, ∀ c ∈ p, (c == sep) = false := by
      intro p hp
      exact h p (by simp [List.mem_cons.mp hp])
    have := ih y h2
    rw [joinSep] at this
    rw [this]

/-- Characters of `String.join` come from the joined strings. -/
theorem join_data_foldl (l : List String) :
    ∀ acc : String, (l.foldl (fun r s => r ++ s) acc).data
      = acc.data ++ (l.map String.data).flatten := by
  induction l with
  | nil => intro acc; simp [String.join]
  | cons s rest ih =>
    intro acc
    rw [List.foldl_cons, ih (acc ++ s), str_data_append]
    simp

/-- The characters of a joined string list. -/
theorem join_data (l : List String) :
    (String.join l).data = (l.map String.data).flatten := by
  rw [String.join, join_data_foldl l ""]
  rfl

/-- The characters of the written csv file: the header, a newline, then
each rendered line followed by a newline. -/
theorem csvContent_data (rows : List (List String)) :
    (csvContent rows).data
      = csvHeader.data
        ++ '\n' :: (rows.map (fun r => (csvLine r).data ++ ['\n'])).flatten := by
  rw [csvContent, str_data_append, str_data_append, join_data,
    List.append_assoc, List.map_map]
  congr 2

/-- Model fact: `to_csv` writes a delimiter/quote/terminator-free field verbatim. -/
theorem toCsvField_plain {f : String} (h : csvPlainField f = true) :
    toCsvField f = f := by
  rw [toCsvField, if_neg]
  rw [csvNeedsQuote]
  rw [csvPlainField, List.all_eq_true] at h
  simp only [List.any_eq_true, not_exists, not_and, Bool.not_eq_true]
  intro c hc
  have h2 := h c hc
  simp only [Bool.and_eq_true, Bool.not_eq_true'] at h2
  simp [h2.1.1.1, h2.1.1.2, h2.1.2, h2.2]

/-- A rendered csv line of plain fields contains no line terminator. -/
theorem csvLine_no_newline {r : List String}
    (h : r.all csvPlainField = true) :
    ∀ c ∈ (csvLine r).data, (c == '\n') = false := by
  intro c hc
  rw [csvLine] at hc
  have hc2 := mem_joinSep hc
  rcases hc2 with rfl | ⟨p, hp, hcp⟩
  · rfl
  · rw [List.mem_map] at hp
    obtain ⟨f, hf, rfl⟩ := hp
    rw [List.all_eq_true] at h
    have hpf := h f hf
    rw [toCsvField_plain hpf] at hcp
    rw [csvPlainField, List.all_eq_true] at hpf
    have h3 := hpf c hcp
    simp only [Bool.and_eq_true, Bool.not_eq_true'] at h3
    exact h3.1.2

/-- Splitting a rendered csv line of plain fields on the comma delimiter
recovers the fields. -/
theorem splitOnChar_csvLine {r : List String} (hne : r ≠ [])
    (h : r.all csvPlainField = true) :
    splitOnChar ',' (csvLine r).data = r.map String.data := by
  rw [csvLine]
  show splitOnChar ',' (joinSep ',' (r.map (fun f => (toCsvField f).data))) = _
  rw [List.all_eq_true] at h
  have hmap : r.map (fun f => (toCsvField f).data) = r.map String.data := by
    apply List.map_congr_left
    intro f hf
    rw [toCsvField_plain (h f hf)]
  rw [hmap]
  cases r with
  | nil => exact absurd rfl hne
  | cons f fs =>
    rw [List.map_cons]
    apply splitOnChar_joinSep
    intro p hp c hcp
    rw [← List.map_cons] at hp
    rw [List.mem_map] at hp
    obtain ⟨g, hg, rfl⟩ := hp
    have hgf := h g hg
    rw [csvPlainField, List.all_eq_true] at hgf
    have h3 := hgf c hcp
    simp only [Bool.and_eq_true, Bool.not_eq_true'] at h3
    exact h3.1.1.1

/-- The line-by-line structure of the written file body. -/
theorem splitOnChar_lines {rows : List (List String)}
    (h : rows.all (fun r => r.all csvPlainField) = true) :
    splitOnChar '\n' ((rows.map (fun r => (csvLine r).data ++ ['\n'])).flatten)
      = rows.map (fun r => (csvLine r).data) ++ [[]] := by
  induction rows with
  | nil => rfl
  | cons r rs ih =>
    have hr : r.all csvPlainField = true
        ∧ rs.all (fun r2 => r2.all csvPlainField) = true := by simpa using h
    rw [List.map_cons, List.flatten_cons, List.append_assoc,
      List.singleton_append,
      splitOnChar_sep '\n' (csvLine r).data _ (csvLine_no_newline hr.1),
      ih hr.2]
    rfl

/-- Claim C9 (amended): for rows of 7 fields free of the delimiter, the
quote character and line terminators (CR/LF), writing with `to_csv` and
re-reading by lines then splitting on the comma reconstructs the rows
exactly. -/
theorem C9_roundtrip (rows : List (List String))
    (hlen : rows.all (fun r => r.length == 7) = true)
    (hplain : rows.all (fun r => r.all csvPlainField) = true) :
    readBack (csvContent rows) = rows := by
  have hhead : ∀ c ∈ csvHeader.data, (c == '\n') = false := by decide
  rw [readBack, csvContent_data, splitOnChar_sep '\n' csvHeader.data _ hhead,
    splitOnChar_lines hplain]
  rw [show csvHeader.data :: (rows.map (fun r => (csvLine r).data) ++ [[]])
      = (csvHeader.data :: rows.map (fun r => (csvLine r).data)) ++ [[]]
    from rfl]
  rw [List.dropLast_concat, List.tail_cons, List.map_map]
  rw [List.all_eq_true] at hlen hplain
  have hid : ∀ r ∈ rows,
      ((fun ln => (splitOnChar ',' ln).map String.mk)
        ∘ (fun r2 => (csvLine r2).data)) r = id r := by
    intro r hr
    have hne : r ≠ [] := by
      intro hnil
      have := hlen r hr
      rw [hnil] at this
      exact absurd this (by decide)
    rw [Function.comp_apply, splitOnChar_csvLine hne (hplain r hr),
      List.map_map]
    have : (String.mk ∘ String.data) = id := by
      funext s
      rfl
    rw [this, List.map_id]
    rfl
  rw [List.map_congr_left hid, List.map_id]

/-- Witness for C9 (amended) at the two demo rows. -/
theorem C9_roundtrip_witness : readBack (csvContent rowsDemo) = rowsDemo :=
  C9_roundtrip rowsDemo (by decide) (by decide)

/-- Counterexample to C9 as stated: a 7-field row whose first field is
`a<LF>b` — comma-free and quote-free — is quoted by `to_csv` because of
the newline, so re-reading by lines and splitting on commas does not
reconstruct it. -/
theorem C9_counterexample :
    rowsNewline.all (fun r => r.length == 7 && r.all commaQuoteFree) = true
    ∧ readBack (csvContent rowsNewline) ≠ rowsNewline := by
  refine ⟨by decide, by decide⟩

end Spotwx
